import Mathlib

/-!
Verification development for the CodeAB backup engine (`src/backup.py`).

The file gives a shallow embedding of the engine's core:

* settings loading (`load_settings`, `create_default_settings`),
* one backup run (`create_backup`, built on `shutil.copytree` with
  `ignore=shutil.ignore_patterns(...)` and default `symlinks=False`),
* the overlap guard in `BackupApp.manual_backup`,
* interval rescheduling (`BackupApp.save_interval` /
  `BackupApp.reschedule_backup` over the `schedule` library), and
* the scheduler worker loop (`BackupApp.run_scheduler_thread`) together
  with shutdown (`BackupApp.on_closing`), as a small interleaving
  semantics.

Filesystems are finite trees; machine effects (log writes, the GUI) are
reified as returned data.  All definitions are executable so concrete
runs evaluate by `rfl` / `decide`.
-/

namespace CodeAB

/-! ## Glob matching

`shutil.ignore_patterns(*patterns)` marks, in every visited directory, the
entry basenames matched by `fnmatch.fnmatch` against some pattern.  We model
the pattern forms the repository uses: `*`, `?` and literal characters
(`fnmatch` character classes are not exercised by any configuration of this
program).  The matcher is written with an explicit fuel argument so that it is
structurally recursive; `fnmatch` supplies fuel `|pattern| + |name| + 1`,
which is sufficient because every step consumes at least one pattern or name
character. -/

/-- One step of glob matching over explicit character lists, fuel-indexed. -/
def globGo : Nat → List Char → List Char → Bool
  | 0, p, s => p.isEmpty && s.isEmpty
  | fuel + 1, p, s =>
    match p, s with
    | [], [] => true
    | [], _ :: _ => false
    | '*' :: ps, [] => globGo fuel ps []
    | '*' :: ps, c :: cs => globGo fuel ps (c :: cs) || globGo fuel ('*' :: ps) cs
    | '?' :: ps, _ :: cs => globGo fuel ps cs
    | '?' :: _, [] => false
    | ch :: ps, c :: cs => (ch == c) && globGo fuel ps cs
    | _ :: _, [] => false

/-- Python `fnmatch.fnmatch(name, pattern)` on the `*` / `?` / literal
fragment of glob syntax. -/
def fnmatch (name pattern : String) : Bool :=
  globGo (pattern.length + name.length + 1) pattern.toList name.toList

/-- The effect of `shutil.ignore_patterns(*patterns)` on one basename: the
name is ignored iff some pattern fnmatches it. -/
def matchesAny (name : String) (patterns : List String) : Bool :=
  patterns.any (fun pat => fnmatch name pat)

/-! ## Filesystem model

A source tree is a finite tree of named entries.  A symbolic link is
represented together with the result of resolving it: `symlinkTo t` is a link
whose target resolves to entry `t`, and `symlinkDangling` is a link whose
resolution fails at the OS level (dangling target, or a self-referential /
cyclic chain, which the OS reports as an error such as `ELOOP`; a finite tree
has no other representation for such a link).  Regular files carry their
bytes and a readability flag (`readable = false` models a file whose copy
raises `PermissionError`). -/

mutual
/-- One filesystem entry. -/
inductive Entry where
  | file (content : List Nat) (readable : Bool)
  | symlinkDangling
  | symlinkTo (target : Entry)
  | dir (children : Entries)

/-- The ordered children of a directory, as listed by `os.scandir`. -/
inductive Entries where
  | nil
  | cons (name : String) (entry : Entry) (rest : Entries)
end

/-! ## Tree copy: `shutil.copytree` with `ignore_patterns` and default
`symlinks=False`

`create_backup` calls
`shutil.copytree(project_path, destination_path, ignore=shutil.ignore_patterns(*exclude_patterns))`.
With the default `symlinks=False`, `copytree` *follows* symbolic links: the
linked target's contents are copied in place of the link.  Per-entry failures
(`PermissionError` on an unreadable file, `OSError` on an unresolvable link)
are collected into an error list and iteration continues; `copytree` raises
`shutil.Error(errors)` at the end iff the list is nonempty, and by then every
successfully copied entry is already on disk (no rollback).  The model
returns the partial copied tree together with the ordered error list. -/

mutual
/-- Copy one already-selected (non-ignored) entry.  Returns the copied entry
(`none` when the copy of this entry failed) and the errors it produced. -/
def copyEntry : Entry → List String → Option Entry × List String
  | .file c true, _ => (some (Entry.file c true), [])
  | .file _ false, _ => (none, ["PermissionError"])
  | .symlinkDangling, _ => (none, ["FileNotFoundError"])
  | .symlinkTo t, pats => copyEntry t pats
  | .dir cs, pats =>
    let r := copyDir cs pats
    (some (Entry.dir r.1), r.2)

/-- Copy the children of a directory in listing order, skipping the names
matched by `ignore_patterns`, collecting per-entry errors prefixed with the
failing entry's name. -/
def copyDir : Entries → List String → Entries × List String
  | .nil, _ => (Entries.nil, [])
  | .cons n e rest, pats =>
    let tl := copyDir rest pats
    if matchesAny n pats then tl
    else
      match copyEntry e pats with
      | (some e2, errs) => (Entries.cons n e2 tl.1, errs.map (fun m => n ++ ": " ++ m) ++ tl.2)
      | (none, errs) => (tl.1, errs.map (fun m => n ++ ": " ++ m) ++ tl.2)
end

/-! ## Configuration and one backup run -/

/-- One entry of the `projects` list of `settings.json`: the loop body of
`create_backup` reads `project['name']`, `project['path']` and
`project.get('exclude_folders', [])`. -/
structure ProjectSpec where
  name : String
  path : String
  exclude_folders : List String
deriving DecidableEq, Repr

/-- The settings dictionary with the three fields `load_settings` requires. -/
structure Settings where
  backup_interval_minutes : Int
  backup_destination_folder : String
  projects : List ProjectSpec
deriving DecidableEq, Repr

/-- Per-project outcome, reifying the per-project log messages of
`create_backup`: the "건너뜁니다" skip message for a missing source, the
"백업 완료" message for a clean copy, and the "오류 발생: e" message, whose
exception text `e` is carried as the ordered failure detail list. -/
inductive Outcome where
  | copied
  | sourceMissing
  | copyError (detail : List String)
deriving DecidableEq, Repr

/-- The value of one full run of `create_backup`: the returned pair
`(success, backup_base_path)` plus the reified per-project outcomes and the
trees actually written under the snapshot directory, keyed by project name in
creation order. -/
structure RunResult where
  success : Bool
  snapshotPath : Option String
  results : List (String × Outcome)
  snapshot : List (String × Entry)

/-- The directory listing `os.scandir(src)` takes at the root of a project:
a directory yields its children, a symlink is followed (default
`symlinks=False` path reaches `scandir` through the resolved path), a regular
file raises `NotADirectoryError` and an unresolvable link raises
`FileNotFoundError`; either exception is caught by the per-project handler. -/
def rootChildren : Entry → Option Entries
  | .dir cs => some cs
  | .symlinkTo t => rootChildren t
  | .file _ _ => none
  | .symlinkDangling => none

/-- One iteration of the project loop of `create_backup` (lines 83–104).
`fs` maps a configured source path to the tree found there (`none` when
`os.path.exists` fails).  `snap` is the snapshot directory built so far.
The order of failure checks follows `shutil.copytree`: `os.scandir(src)`
first (`NotADirectoryError` for a file root), then
`os.makedirs(dst)` (`FileExistsError` when a previous project already created
`snapshotPath / name`), then the entry loop. -/
def runProject (fs : String → Option Entry) (snap : List (String × Entry))
    (p : ProjectSpec) : (String × Outcome) × List (String × Entry) :=
  match fs p.path with
  | none => ((p.name, Outcome.sourceMissing), snap)
  | some src =>
    match rootChildren src with
    | none => ((p.name, Outcome.copyError ["NotADirectoryError"]), snap)
    | some children =>
      if (snap.map Prod.fst).contains p.name then
        ((p.name, Outcome.copyError ["FileExistsError"]), snap)
      else
        let r := copyDir children p.exclude_folders
        ((p.name, if r.2.isEmpty then Outcome.copied else Outcome.copyError r.2),
          snap ++ [(p.name, Entry.dir r.1)])

/-- The project loop of `create_backup`, in configured order, threading the
snapshot directory through. -/
def runProjects (fs : String → Option Entry) :
    List ProjectSpec → List (String × Entry) →
    List (String × Outcome) × List (String × Entry)
  | [], snap => ([], snap)
  | p :: rest, snap =>
    let r := runProject fs snap p
    let rs := runProjects fs rest r.2
    (r.1 :: rs.1, rs.2)

/-- `create_backup(settings, log_callback)`.  `ts` is the
`datetime.now().strftime` timestamp.  When `backup_destination_folder` is the
empty string, `os.path.exists("")` is false and `os.makedirs("")` raises
`FileNotFoundError`, so the outer handler returns `(False, None)` before any
project is visited; a nonempty destination is assumed creatable.  Otherwise
the function always returns `(True, backup_base_path)`: every per-project
exception is caught inside the loop. -/
def create_backup (settings : Settings) (fs : String → Option Entry)
    (ts : String) : RunResult :=
  if settings.backup_destination_folder = "" then
    { success := false, snapshotPath := none, results := [], snapshot := [] }
  else
    let r := runProjects fs settings.projects []
    { success := true
      snapshotPath := some (settings.backup_destination_folder ++ "/backup_" ++ ts)
      results := r.1
      snapshot := r.2 }

/-! ## Settings loading -/

/-- The parse of a present, well-formed-JSON `settings.json`: which of the
three required keys are present, and their values when they are.  (Values of
present keys are typed; the source stores them as JSON and performs no type
validation beyond key presence.) -/
structure RawSettings where
  interval? : Option Int
  dest? : Option String
  projects? : Option (List ProjectSpec)
deriving DecidableEq, Repr

/-- The state `load_settings` finds the settings file in: absent, present
but unparseable (`json.JSONDecodeError`), or parsed.  (An unreadable file
raising any other exception terminates the process and is outside this
model.) -/
inductive SettingsFile where
  | missing
  | corrupt
  | parsed (raw : RawSettings)
deriving DecidableEq, Repr

/-- `create_default_settings()`: writes and returns the default dictionary
`{backup_interval_minutes: 10, backup_destination_folder: "", projects: []}`. -/
def create_default_settings : Settings :=
  { backup_interval_minutes := 10, backup_destination_folder := "", projects := [] }

/-- `load_settings()` (lines 39–60): missing file or parse failure or any of
the three required keys absent regenerates the defaults; otherwise the stored
settings are returned as-is. -/
def load_settings : SettingsFile → Settings
  | .missing => create_default_settings
  | .corrupt => create_default_settings
  | .parsed raw =>
    match raw.interval?, raw.dest?, raw.projects? with
    | some i, some d, some ps =>
      { backup_interval_minutes := i, backup_destination_folder := d, projects := ps }
    | _, _, _ => create_default_settings

/-! ## The overlap guard: `BackupApp.manual_backup`

Both the manual button and the `schedule` job call the same
`manual_backup` method, so every trigger — manual or scheduled — runs this
code.  The relevant application state is whether `self.backup_thread` refers
to a live thread, the accumulated log, and how many backup runs have been
started (each started run produces one run record). -/

/-- Log message emitted for every trigger. -/
def msg_manual_requested : String := "수동 백업이 요청되었습니다."

/-- Log message emitted when a run is already active. -/
def msg_already_running : String := "백업 작업이 이미 진행 중입니다."

/-- The slice of `BackupApp` state that `manual_backup` reads and writes. -/
structure AppState where
  threadAlive : Bool
  log : List String
  runsStarted : Nat
deriving DecidableEq, Repr

/-- `BackupApp.log_message`: append one message to the in-memory log (the
mirror to the durable log file carries the same sequence). -/
def log_message (s : AppState) (m : String) : AppState :=
  { s with log := s.log ++ [m] }

/-- `BackupApp.manual_backup` (lines 423–437): log the request; if
`self.backup_thread` is alive, log the already-in-progress message and return
without touching anything else (no queue exists); otherwise start a new
backup thread. -/
def manual_backup (s : AppState) : AppState :=
  let s1 := log_message s msg_manual_requested
  if s1.threadAlive then
    log_message s1 msg_already_running
  else
    { s1 with threadAlive := true, runsStarted := s1.runsStarted + 1 }

/-! ## Interval rescheduling over the `schedule` library

`schedule.every(m).minutes.do(job)` creates a job whose first firing time is
`now + m` minutes; `.do` does not run the job.  `schedule.run_pending()` runs
every job whose firing time has arrived and re-arms it at `now + m`.
`BackupApp.reschedule_backup` clears all jobs and schedules a single fresh
one at the current interval.  Times are in minutes. -/

/-- One `schedule` job: its period and its absolute next firing time. -/
structure SchedulerJob where
  intervalMinutes : Nat
  nextRun : Nat
deriving DecidableEq, Repr

/-- `schedule.every(m).minutes.do(...)` issued at absolute time `now`. -/
def schedule_every_minutes (m now : Nat) : SchedulerJob :=
  { intervalMinutes := m, nextRun := now + m }

/-- `BackupApp.reschedule_backup` (lines 458–462): `schedule.clear()`
followed by `schedule.every(interval).minutes.do(self.manual_backup)`;
whatever jobs existed are discarded. -/
def reschedule_backup (interval now : Nat) (_jobs : List SchedulerJob) :
    List SchedulerJob :=
  [schedule_every_minutes interval now]

/-- `schedule.run_pending()` at time `now`: re-arm every due job and report
how many jobs fired. -/
def run_pending (now : Nat) (jobs : List SchedulerJob) :
    List SchedulerJob × Nat :=
  (jobs.map (fun j =>
      if j.nextRun ≤ now then schedule_every_minutes j.intervalMinutes now else j),
    (jobs.filter (fun j => j.nextRun ≤ now)).length)

/-- `BackupApp.save_interval` (lines 326–338): parse the entry text
(`raw = none` models `ValueError` from `int(...)`); a positive parse updates
the settings, persists them and reschedules; otherwise nothing changes. -/
def save_interval (raw : Option Int) (settings : Settings) (now : Nat)
    (jobs : List SchedulerJob) : Settings × List SchedulerJob :=
  match raw with
  | none => (settings, jobs)
  | some i =>
    if i > 0 then
      ({ settings with backup_interval_minutes := i },
        reschedule_backup i.toNat now jobs)
    else
      (settings, jobs)

/-! ## Shutdown and the scheduler worker, as an interleaving semantics

`run_scheduler_thread` starts a daemon thread running
`while self.is_running: schedule.run_pending(); time.sleep(1)`, and
`on_closing` sets `self.is_running = False` and returns without joining the
thread.  We model the joint behaviour of the worker and the closing call as a
labelled transition system: the worker has a program counter (about to test
the flag, about to call `run_pending`, about to sleep, or exited), and the
foreground may perform the stop assignment once.  `firesAfterStop` counts
`run_pending` calls the worker executes after `on_closing` has returned. -/

/-- Program counter of the scheduler worker loop. -/
inductive SchedPC where
  | check
  | pending
  | sleeping
  | done
deriving DecidableEq, Repr

/-- Joint state of the scheduler worker and the closing foreground call. -/
structure SchedSys where
  isRunning : Bool
  pc : SchedPC
  stopReturned : Bool
  firesAfterStop : Nat
deriving DecidableEq, Repr

/-- The interleaved atomic actions: the worker tests `self.is_running`,
calls `schedule.run_pending()`, sleeps; the foreground runs `on_closing`'s
`self.is_running = False` and returns. -/
inductive SchedAct where
  | tCheck
  | tPending
  | tSleep
  | tStop
deriving DecidableEq, Repr

/-- One atomic step; `none` when the action is not enabled in this state. -/
def schedStep (s : SchedSys) : SchedAct → Option SchedSys
  | .tCheck =>
    if s.pc = SchedPC.check then
      some { s with pc := if s.isRunning then SchedPC.pending else SchedPC.done }
    else none
  | .tPending =>
    if s.pc = SchedPC.pending then
      some { s with pc := SchedPC.sleeping
                    firesAfterStop :=
                      s.firesAfterStop + (if s.stopReturned then 1 else 0) }
    else none
  | .tSleep =>
    if s.pc = SchedPC.sleeping then some { s with pc := SchedPC.check } else none
  | .tStop =>
    if s.stopReturned then none
    else some { s with isRunning := false, stopReturned := true }

/-- Run a whole interleaving. -/
def schedExec (s : SchedSys) : List SchedAct → Option SchedSys
  | [] => some s
  | a :: rest => (schedStep s a).bind (fun s1 => schedExec s1 rest)

/-- Initial state: the worker loop is running and about to test the flag,
`on_closing` has not been called. -/
def schedInit : SchedSys :=
  { isRunning := true, pc := SchedPC.check, stopReturned := false,
    firesAfterStop := 0 }

/-! ## Observation predicates on trees -/

mutual
/-- Does the tree rooted at this entry contain, at any depth, an entry whose
basename matches one of `pats`?  (Basenames live on directory listings.) -/
def treeHasMatch : Entry → List String → Bool
  | .file _ _, _ => false
  | .symlinkDangling, _ => false
  | .symlinkTo t, pats => treeHasMatch t pats
  | .dir cs, pats => childrenHaveMatch cs pats

/-- Does this listing contain, at any depth, an entry whose basename matches
one of `pats`? -/
def childrenHaveMatch : Entries → List String → Bool
  | .nil, _ => false
  | .cons n e rest, pats =>
    matchesAny n pats || treeHasMatch e pats || childrenHaveMatch rest pats
end

/-- Is this entry a readable regular file with bytes `c`? -/
def entryIsReadableFile : Entry → List Nat → Bool
  | .file c2 true, c => c2 == c
  | _, _ => false

/-- Does this listing contain, directly, a readable regular file named `m`
with bytes `c`? -/
def hasReadableFile : Entries → String → List Nat → Bool
  | .nil, _, _ => false
  | .cons n e rest, m, c =>
    (n == m && entryIsReadableFile e c) || hasReadableFile rest m c

/-- Is this entry a symbolic link? -/
def isSymlink : Entry → Bool
  | .symlinkDangling => true
  | .symlinkTo _ => true
  | _ => false

/-- Modelled from the spec: the next firing time `setInterval(newM)` would
produce if it kept "the currently-ticking timer's notion of now", i.e. if it
replaced only the cadence while preserving the anchor from which the current
period is measured (`nextRun - intervalMinutes`).  This definition follows
the spec's words and exists to be compared against `reschedule_backup`. -/
def spec_next_firing_keeping_anchor (oldJob : SchedulerJob) (newM : Nat) : Nat :=
  oldJob.nextRun - oldJob.intervalMinutes + newM

/-- Invariant of the shutdown transition system: once `on_closing` has
returned the flag is down, the fired-after-stop counter only counts after
the stop, and at most one `run_pending` call (the one the worker may already
have committed to by passing the flag test) remains possible. -/
def schedInv (s : SchedSys) : Prop :=
  (s.stopReturned = true → s.isRunning = false) ∧
  (s.stopReturned = false → s.firesAfterStop = 0) ∧
  s.firesAfterStop +
    (if s.stopReturned = true ∧ s.pc = SchedPC.pending then 1 else 0) ≤ 1

/-! ## Lemmas about the copy functions -/

/-- Specialisation of `copyDir` to a matched head entry: the entry is
dropped together with its entire subtree, which is never traversed. -/
theorem copyDir_cons_matched (n : String) (e : Entry) (rest : Entries)
    (pats : List String) (h : matchesAny n pats = true) :
    copyDir (Entries.cons n e rest) pats = copyDir rest pats := by
  simp [copyDir, h]

/-- Specialisation of `copyDir` to an unmatched head entry. -/
theorem copyDir_cons_unmatched (n : String) (e : Entry) (rest : Entries)
    (pats : List String) (h : matchesAny n pats = false) :
    copyDir (Entries.cons n e rest) pats =
      match copyEntry e pats with
      | (some e2, errs) =>
        (Entries.cons n e2 (copyDir rest pats).1,
          errs.map (fun m => n ++ ": " ++ m) ++ (copyDir rest pats).2)
      | (none, errs) =>
        ((copyDir rest pats).1,
          errs.map (fun m => n ++ ": " ++ m) ++ (copyDir rest pats).2) := by
  simp [copyDir, h]

mutual
/-- A successfully copied entry never contains a matched basename at any
depth: the ignore set is recomputed at every directory level. -/
theorem copyEntry_no_match (e : Entry) (pats : List String) :
    ∀ e2 errs, copyEntry e pats = (some e2, errs) → treeHasMatch e2 pats = false := by
  intro e2 errs h
  match e with
  | .file c true =>
    simp [copyEntry] at h
    simp [← h.1, treeHasMatch]
  | .file c false => simp [copyEntry] at h
  | .symlinkDangling => simp [copyEntry] at h
  | .symlinkTo t =>
    rw [copyEntry] at h
    exact copyEntry_no_match t pats e2 errs h
  | .dir cs =>
    rw [copyEntry] at h
    have h1 : e2 = Entry.dir (copyDir cs pats).1 := by
      cases h
      rfl
    rw [h1, treeHasMatch]
    exact copyDir_no_match cs pats

/-- The copied listing never contains a matched basename at any depth. -/
theorem copyDir_no_match (cs : Entries) (pats : List String) :
    childrenHaveMatch (copyDir cs pats).1 pats = false := by
  match cs with
  | .nil => simp [copyDir, childrenHaveMatch]
  | .cons n e rest =>
    by_cases hm : matchesAny n pats = true
    · rw [copyDir_cons_matched n e rest pats hm]
      exact copyDir_no_match rest pats
    · have hm' : matchesAny n pats = false := by
        revert hm
        cases matchesAny n pats <;> simp
      rw [copyDir_cons_unmatched n e rest pats hm']
      match hc : copyEntry e pats with
      | (some e2, errs) =>
        simp only [childrenHaveMatch, hm', Bool.false_or]
        rw [copyEntry_no_match e pats e2 errs hc, Bool.false_or]
        exact copyDir_no_match rest pats
      | (none, errs) =>
        exact copyDir_no_match rest pats
end

/-- Copying a readable regular file succeeds, produces no error, and
reproduces the bytes exactly. -/
theorem copyEntry_of_readable : ∀ (e : Entry) (c : List Nat) (pats : List String),
    entryIsReadableFile e c = true →
    copyEntry e pats = (some (Entry.file c true), [])
  | .file c2 true, c, pats, h => by
    have hc : c2 = c := by simpa [entryIsReadableFile] using h
    subst hc
    rfl
  | .file c2 false, c, pats, h => by simp [entryIsReadableFile] at h
  | .symlinkDangling, c, pats, h => by simp [entryIsReadableFile] at h
  | .symlinkTo t, c, pats, h => by simp [entryIsReadableFile] at h
  | .dir cs, c, pats, h => by simp [entryIsReadableFile] at h

/-- Readable files that are not excluded are copied byte-for-byte and stay
in place even when sibling entries fail: no rollback happens. -/
theorem copyDir_keeps_readable_files (cs : Entries) (pats : List String)
    (m : String) (c : List Nat) :
    hasReadableFile cs m c = true → matchesAny m pats = false →
    hasReadableFile (copyDir cs pats).1 m c = true := by
  intro hmem hnm
  match cs with
  | .nil => simp [hasReadableFile] at hmem
  | .cons n e rest =>
    have ih := fun h => copyDir_keeps_readable_files rest pats m c h hnm
    rw [hasReadableFile] at hmem
    rcases Bool.or_eq_true_iff.mp hmem with hhead | htail
    · rcases Bool.and_eq_true_iff.mp hhead with ⟨h1, h2⟩
      have hn : n = m := eq_of_beq h1
      have hm' : matchesAny n pats = false := by rw [hn]; exact hnm
      rw [copyDir_cons_unmatched n e rest pats hm',
          copyEntry_of_readable e c pats h2]
      rw [hasReadableFile]
      simp [h1, entryIsReadableFile]
    · by_cases hm : matchesAny n pats = true
      · rw [copyDir_cons_matched n e rest pats hm]
        exact ih htail
      · have hm' : matchesAny n pats = false := by
          revert hm
          cases matchesAny n pats <;> simp
        rw [copyDir_cons_unmatched n e rest pats hm']
        match hc : copyEntry e pats with
        | (some e2, errs) =>
          rw [hasReadableFile, ih htail]
          simp
        | (none, errs) =>
          exact ih htail

/-! ## Lemmas about the project loop -/

/-- A project whose source path does not exist contributes exactly one
`sourceMissing` record and leaves the snapshot untouched. -/
theorem runProject_missing (fs : String → Option Entry)
    (snap : List (String × Entry)) (p : ProjectSpec) (h : fs p.path = none) :
    runProject fs snap p = ((p.name, Outcome.sourceMissing), snap) := by
  simp [runProject, h]

/-- The project loop over a concatenation is the loop over the first part
followed by the loop over the second, threading the snapshot. -/
theorem runProjects_append (fs : String → Option Entry) (l1 l2 : List ProjectSpec)
    (snap : List (String × Entry)) :
    runProjects fs (l1 ++ l2) snap =
      ((runProjects fs l1 snap).1 ++
        (runProjects fs l2 (runProjects fs l1 snap).2).1,
        (runProjects fs l2 (runProjects fs l1 snap).2).2) := by
  induction l1 generalizing snap with
  | nil => simp [runProjects]
  | cons p rest ih =>
    simp only [List.cons_append, runProjects]
    rw [show rest.append l2 = rest ++ l2 from rfl, ih]

/-- The loop records exactly one outcome per configured project. -/
theorem runProjects_length (fs : String → Option Entry) (l : List ProjectSpec)
    (snap : List (String × Entry)) :
    (runProjects fs l snap).1.length = l.length := by
  induction l generalizing snap with
  | nil => rfl
  | cons p rest ih => simp [runProjects, ih]

/-! ## Lemmas about the shutdown transition system -/

/-- Every enabled atomic step preserves `schedInv`. -/
theorem schedStep_inv (s : SchedSys) (a : SchedAct) (s1 : SchedSys)
    (h : schedStep s a = some s1) (hi : schedInv s) : schedInv s1 := by
  obtain ⟨run, pc, sr, fires⟩ := s
  obtain ⟨h1, h2, h3⟩ := hi
  cases a <;> cases pc <;> cases sr <;> cases run <;>
    simp_all [schedStep, schedInv] <;>
    (try subst h) <;>
    simp_all [schedInv]

/-- `schedInv` holds along every interleaving from an invariant state. -/
theorem schedExec_inv (tr : List SchedAct) (s s1 : SchedSys)
    (h : schedExec s tr = some s1) (hi : schedInv s) : schedInv s1 := by
  induction tr generalizing s with
  | nil =>
    rw [schedExec] at h
    cases h
    exact hi
  | cons a rest ih =>
    rw [schedExec] at h
    match hs : schedStep s a with
    | none => rw [hs] at h; cases h
    | some s2 =>
      rw [hs] at h
      exact ih s2 h (schedStep_inv s a s2 hs hi)

/-! ## The claims -/

/-- C1: every trigger — manual or scheduled, both funnel through
`manual_backup` — that arrives while a backup run is active starts no second
run (`runsStarted` is unchanged, so no second run record is produced), leaves
the whole state unchanged except for appending the request message and
exactly one already-in-progress message to the log, and is dropped without
queuing (no state component records the trigger). -/
theorem claim_overlap_drop (s : AppState) (h : s.threadAlive = true) :
    manual_backup s =
      { s with log := s.log ++ [msg_manual_requested, msg_already_running] } ∧
    (manual_backup s).runsStarted = s.runsStarted ∧
    (manual_backup s).threadAlive = s.threadAlive ∧
    ((manual_backup s).log.drop s.log.length).count msg_already_running = 1 := by
  have hmb : manual_backup s =
      { s with log := s.log ++ [msg_manual_requested, msg_already_running] } := by
    simp [manual_backup, log_message, h]
  refine ⟨hmb, by rw [hmb], by rw [hmb], ?_⟩
  rw [hmb]
  show ((s.log ++ [msg_manual_requested, msg_already_running]).drop s.log.length).count
      msg_already_running = 1
  rw [List.drop_left]
  decide

/-- Witness for C1 at a concrete busy state. -/
theorem claim_overlap_drop_witness :
    manual_backup { threadAlive := true, log := [], runsStarted := 1 } =
      { threadAlive := true, log := [msg_manual_requested, msg_already_running],
        runsStarted := 1 } ∧
    (manual_backup { threadAlive := true, log := [], runsStarted := 1 }).runsStarted = 1 :=
  ⟨(claim_overlap_drop { threadAlive := true, log := [], runsStarted := 1 } rfl).1,
    (claim_overlap_drop { threadAlive := true, log := [], runsStarted := 1 } rfl).2.1⟩

/-- C8: a missing settings file, an unparseable one, or one lacking any of
the three required fields regenerates the defaults
`{backup_interval_minutes = 10, backup_destination_folder = "", projects = []}`
instead of failing startup, and a well-formed file with all three fields is
returned as stored. -/
theorem claim_settings_defaults :
    (load_settings SettingsFile.missing = create_default_settings ∧
      create_default_settings =
        { backup_interval_minutes := 10, backup_destination_folder := "",
          projects := [] }) ∧
    load_settings SettingsFile.corrupt = create_default_settings ∧
    (∀ raw : RawSettings,
      raw.interval? = none ∨ raw.dest? = none ∨ raw.projects? = none →
      load_settings (SettingsFile.parsed raw) = create_default_settings) ∧
    ∀ (i : Int) (d : String) (ps : List ProjectSpec),
      load_settings
          (SettingsFile.parsed
            { interval? := some i, dest? := some d, projects? := some ps }) =
        { backup_interval_minutes := i, backup_destination_folder := d,
          projects := ps } := by
  refine ⟨⟨rfl, rfl⟩, rfl, ?_, fun i d ps => rfl⟩
  intro raw h
  obtain ⟨iv, dv, pv⟩ := raw
  cases iv <;> cases dv <;> cases pv <;> simp_all [load_settings]

/-- Witness for C8 at a concrete field-lacking file. -/
theorem claim_settings_defaults_witness :
    load_settings
        (SettingsFile.parsed
          { interval? := none, dest? := some "", projects? := some [] }) =
      create_default_settings :=
  claim_settings_defaults.2.2.1
    { interval? := none, dest? := some "", projects? := some [] } (Or.inl rfl)

/-- C9: with an empty destination folder, `os.makedirs("")` raises inside
the outer handler before any project is visited, so the run fails as a whole
(returns `(False, None)`) and writes no snapshot; the exception is caught, so
the engine survives and the next trigger on an idle state starts a new run. -/
theorem claim_empty_destination (settings : Settings) (fs : String → Option Entry)
    (ts : String) (s : AppState)
    (hdest : settings.backup_destination_folder = "")
    (hidle : s.threadAlive = false) :
    (create_backup settings fs ts).success = false ∧
    (create_backup settings fs ts).snapshotPath = none ∧
    (create_backup settings fs ts).snapshot = [] ∧
    (manual_backup s).runsStarted = s.runsStarted + 1 ∧
    (manual_backup s).threadAlive = true := by
  have hcb : create_backup settings fs ts =
      { success := false, snapshotPath := none, results := [], snapshot := [] } := by
    simp [create_backup, hdest]
  refine ⟨by rw [hcb], by rw [hcb], by rw [hcb], ?_, ?_⟩ <;>
    simp [manual_backup, log_message, hidle]

/-- Witness for C9 at a concrete empty-destination configuration. -/
theorem claim_empty_destination_witness :
    (create_backup
        { backup_interval_minutes := 10, backup_destination_folder := "",
          projects := [{ name := "p", path := "/src", exclude_folders := [] }] }
        (fun _ => none) "ts").success = false ∧
    (manual_backup { threadAlive := false, log := [], runsStarted := 3 }).runsStarted = 4 := by
  have h := claim_empty_destination
    { backup_interval_minutes := 10, backup_destination_folder := "",
      projects := [{ name := "p", path := "/src", exclude_folders := [] }] }
    (fun _ => none) "ts"
    { threadAlive := false, log := [], runsStarted := 3 } rfl rfl
  exact ⟨h.1, h.2.2.2.1⟩

/-- C10: two configured projects with the same display name and both
sources present: the first is copied into the snapshot subdirectory of that
name, the second fails with `FileExistsError` from `os.makedirs` inside
`shutil.copytree` and is recorded as a per-project copy error, the first
project's tree stays in place, and the run still reports overall success. -/
theorem claim_duplicate_names (fs : String → Option Entry) (ts : String)
    (iv : Int) (dest nm path1 path2 : String) (ex1 ex2 : List String)
    (cs1 cs2 t1 : Entries)
    (hdest : dest ≠ "")
    (h1 : fs path1 = some (Entry.dir cs1))
    (h2 : fs path2 = some (Entry.dir cs2))
    (hclean : copyDir cs1 ex1 = (t1, [])) :
    create_backup
        { backup_interval_minutes := iv, backup_destination_folder := dest,
          projects := [{ name := nm, path := path1, exclude_folders := ex1 },
                       { name := nm, path := path2, exclude_folders := ex2 }] }
        fs ts =
      { success := true,
        snapshotPath := some (dest ++ "/backup_" ++ ts),
        results := [(nm, Outcome.copied),
                    (nm, Outcome.copyError ["FileExistsError"])],
        snapshot := [(nm, Entry.dir t1)] } := by
  rw [create_backup, if_neg hdest]
  simp [runProjects, runProject, h1, h2, rootChildren, hclean]

/-- Witness for C10 at a concrete two-project configuration. -/
theorem claim_duplicate_names_witness :
    create_backup
        { backup_interval_minutes := 1, backup_destination_folder := "/bk",
          projects := [{ name := "proj", path := "/a", exclude_folders := [] },
                       { name := "proj", path := "/b", exclude_folders := [] }] }
        (fun s =>
          if s = "/a" then some (Entry.dir (Entries.cons "f" (Entry.file [7] true) Entries.nil))
          else if s = "/b" then some (Entry.dir Entries.nil)
          else none)
        "T" =
      { success := true,
        snapshotPath := some ("/bk/backup_T"),
        results := [("proj", Outcome.copied),
                    ("proj", Outcome.copyError ["FileExistsError"])],
        snapshot := [("proj",
          Entry.dir (Entries.cons "f" (Entry.file [7] true) Entries.nil))] } := by
  have h := claim_duplicate_names
    (fun s =>
      if s = "/a" then some (Entry.dir (Entries.cons "f" (Entry.file [7] true) Entries.nil))
      else if s = "/b" then some (Entry.dir Entries.nil)
      else none)
    "T" 1 "/bk" "proj" "/a" "/b" [] []
    (Entries.cons "f" (Entry.file [7] true) Entries.nil) Entries.nil
    (Entries.cons "f" (Entry.file [7] true) Entries.nil)
    (by decide) (by rfl) (by rfl) (by rfl)
  simpa using h

/-- C2: a project whose source path does not exist at run time is recorded
as `sourceMissing`, the run continues with the remaining projects — their
outcomes and the written snapshot are exactly those of the same run without
the missing project — and the overall success result remains `true`. -/
theorem claim_missing_source (fs : String → Option Entry) (ts : String)
    (settings : Settings) (p : ProjectSpec) (ps1 ps2 : List ProjectSpec)
    (hdest : settings.backup_destination_folder ≠ "")
    (hsplit : settings.projects = ps1 ++ p :: ps2)
    (hmiss : fs p.path = none) :
    (create_backup settings fs ts).success = true ∧
    (create_backup settings fs ts).results =
      (create_backup { settings with projects := ps1 ++ ps2 } fs ts).results.take
          ps1.length ++
        (p.name, Outcome.sourceMissing) ::
          (create_backup { settings with projects := ps1 ++ ps2 } fs ts).results.drop
            ps1.length ∧
    (create_backup settings fs ts).snapshot =
      (create_backup { settings with projects := ps1 ++ ps2 } fs ts).snapshot := by
  have hfull : create_backup settings fs ts =
      { success := true,
        snapshotPath := some (settings.backup_destination_folder ++ "/backup_" ++ ts),
        results := (runProjects fs settings.projects []).1,
        snapshot := (runProjects fs settings.projects []).2 } := by
    rw [create_backup, if_neg hdest]
  have hwo : create_backup { settings with projects := ps1 ++ ps2 } fs ts =
      { success := true,
        snapshotPath := some (settings.backup_destination_folder ++ "/backup_" ++ ts),
        results := (runProjects fs (ps1 ++ ps2) []).1,
        snapshot := (runProjects fs (ps1 ++ ps2) []).2 } := by
    rw [create_backup, if_neg hdest]
  have hmid : runProjects fs (p :: ps2) (runProjects fs ps1 []).2 =
      ((p.name, Outcome.sourceMissing) ::
          (runProjects fs ps2 (runProjects fs ps1 []).2).1,
        (runProjects fs ps2 (runProjects fs ps1 []).2).2) := by
    rw [runProjects, runProject_missing fs (runProjects fs ps1 []).2 p hmiss]
  have hlen : (runProjects fs ps1 []).1.length = ps1.length :=
    runProjects_length fs ps1 []
  refine ⟨by rw [hfull], ?_, ?_⟩
  · rw [hfull, hwo]
    show (runProjects fs settings.projects []).1 =
      ((runProjects fs (ps1 ++ ps2) []).1.take ps1.length) ++
        (p.name, Outcome.sourceMissing) ::
          ((runProjects fs (ps1 ++ ps2) []).1.drop ps1.length)
    rw [hsplit, runProjects_append fs ps1 (p :: ps2) [], hmid,
        runProjects_append fs ps1 ps2 []]
    rw [List.take_left' hlen, List.drop_left' hlen]
  · rw [hfull, hwo]
    show (runProjects fs settings.projects []).2 = (runProjects fs (ps1 ++ ps2) []).2
    rw [hsplit, runProjects_append fs ps1 (p :: ps2) [], hmid,
        runProjects_append fs ps1 ps2 []]

/-- Witness for C2: a missing middle project between two present ones. -/
theorem claim_missing_source_witness :
    (create_backup
        { backup_interval_minutes := 1, backup_destination_folder := "/bk",
          projects := [{ name := "a", path := "/a", exclude_folders := [] },
                       { name := "gone", path := "/gone", exclude_folders := [] },
                       { name := "b", path := "/b", exclude_folders := [] }] }
        (fun s =>
          if s = "/a" then some (Entry.dir Entries.nil)
          else if s = "/b" then some (Entry.dir Entries.nil)
          else none)
        "T").success = true ∧
    (create_backup
        { backup_interval_minutes := 1, backup_destination_folder := "/bk",
          projects := [{ name := "a", path := "/a", exclude_folders := [] },
                       { name := "gone", path := "/gone", exclude_folders := [] },
                       { name := "b", path := "/b", exclude_folders := [] }] }
        (fun s =>
          if s = "/a" then some (Entry.dir Entries.nil)
          else if s = "/b" then some (Entry.dir Entries.nil)
          else none)
        "T").results =
      [("a", Outcome.copied), ("gone", Outcome.sourceMissing),
       ("b", Outcome.copied)] := by
  have h := claim_missing_source
    (fun s =>
      if s = "/a" then some (Entry.dir Entries.nil)
      else if s = "/b" then some (Entry.dir Entries.nil)
      else none)
    "T"
    { backup_interval_minutes := 1, backup_destination_folder := "/bk",
      projects := [{ name := "a", path := "/a", exclude_folders := [] },
                   { name := "gone", path := "/gone", exclude_folders := [] },
                   { name := "b", path := "/b", exclude_folders := [] }] }
    { name := "gone", path := "/gone", exclude_folders := [] }
    [{ name := "a", path := "/a", exclude_folders := [] }]
    [{ name := "b", path := "/b", exclude_folders := [] }]
    (by decide) (by rfl) (by rfl)
  refine ⟨h.1, ?_⟩
  rw [h.2.1]
  rfl

/-- C3: an entry whose basename glob-matches some exclude pattern is
excluded together with its entire subtree (the copy of a listing with a
matched head equals the copy without it), this holds recursively at every
depth (the copied tree contains no matching basename anywhere), an empty
pattern set matches nothing, and the spec's concrete instance
`{a.txt, b.tmp, sub/c.tmp}` with pattern `["*.tmp"]` yields a snapshot
containing `a.txt` and `sub/` but no `*.tmp` entry at any depth. -/
theorem claim_exclusion :
    (∀ (cs : Entries) (pats : List String),
      childrenHaveMatch (copyDir cs pats).1 pats = false) ∧
    (∀ (n : String) (e : Entry) (rest : Entries) (pats : List String),
      matchesAny n pats = true →
      copyDir (Entries.cons n e rest) pats = copyDir rest pats) ∧
    (∀ n : String, matchesAny n [] = false) ∧
    copyDir
        (Entries.cons "a.txt" (Entry.file [97] true)
          (Entries.cons "b.tmp" (Entry.file [98] true)
            (Entries.cons "sub"
              (Entry.dir (Entries.cons "c.tmp" (Entry.file [99] true) Entries.nil))
              Entries.nil))) ["*.tmp"] =
      (Entries.cons "a.txt" (Entry.file [97] true)
        (Entries.cons "sub" (Entry.dir Entries.nil) Entries.nil), []) := by
  refine ⟨copyDir_no_match, copyDir_cons_matched, ?_, by rfl⟩
  intro n
  simp [matchesAny]

/-- Witness for C3: the subtree-exclusion conjunct at a concrete matched
directory, and the recursive no-match conjunct at the concrete source. -/
theorem claim_exclusion_witness :
    copyDir
        (Entries.cons "b.tmp"
          (Entry.dir (Entries.cons "kept.txt" (Entry.file [1] true) Entries.nil))
          (Entries.cons "a.txt" (Entry.file [97] true) Entries.nil)) ["*.tmp"] =
      copyDir (Entries.cons "a.txt" (Entry.file [97] true) Entries.nil) ["*.tmp"] ∧
    childrenHaveMatch
        (copyDir
          (Entries.cons "b.tmp" (Entry.file [98] true) Entries.nil) ["*.tmp"]).1
        ["*.tmp"] = false :=
  ⟨claim_exclusion.2.1 "b.tmp"
      (Entry.dir (Entries.cons "kept.txt" (Entry.file [1] true) Entries.nil))
      (Entries.cons "a.txt" (Entry.file [97] true) Entries.nil)
      ["*.tmp"] (by decide),
    claim_exclusion.1 (Entries.cons "b.tmp" (Entry.file [98] true) Entries.nil)
      ["*.tmp"]⟩

/-- C4 counterexample: the claim says symbolic links are copied as links and
not followed, but `create_backup` invokes `shutil.copytree` with its default
`symlinks=False`, which follows links: copying a directory whose single
entry `link` is a symlink to a readable file produces a regular file with
the target's bytes, not a symlink. -/
theorem claim_symlink_counterexample :
    copyDir
        (Entries.cons "link" (Entry.symlinkTo (Entry.file [104] true)) Entries.nil)
        [] =
      (Entries.cons "link" (Entry.file [104] true) Entries.nil, []) ∧
    isSymlink (Entry.symlinkTo (Entry.file [104] true)) = true ∧
    isSymlink (Entry.file [104] true) = false :=
  ⟨rfl, rfl, rfl⟩

/-- C4 amended: regular files are copied byte-for-byte, but symbolic links
are followed (default `symlinks=False`): the resolved target is copied in
place of the link, and a link whose OS-level resolution fails — dangling, or
cyclic, which a finite tree cannot represent as a resolved target — yields a
per-entry error instead of a copy. -/
theorem claim_symlink_followed :
    (∀ (c : List Nat) (pats : List String),
      copyEntry (Entry.file c true) pats = (some (Entry.file c true), [])) ∧
    (∀ (t : Entry) (pats : List String),
      copyEntry (Entry.symlinkTo t) pats = copyEntry t pats) ∧
    (∀ pats : List String,
      copyEntry Entry.symlinkDangling pats = (none, ["FileNotFoundError"])) := by
  refine ⟨fun c pats => ?_, fun t pats => ?_, fun pats => ?_⟩ <;> rw [copyEntry]

/-- C5: when some entries of a project fail to copy while others succeed,
the remaining readable entries are still copied and stay in place under the
snapshot path (no rollback), and the project is marked `copyError` whose
detail is the ordered failure list — its head is the first failure and its
length the failure count — while the partial tree remains in the snapshot.
The concrete conjunct shows a three-entry listing whose first entry is
unreadable: the two sibling files are copied and one error naming `X` is
recorded. -/
theorem claim_partial_failure :
    (∀ (cs : Entries) (pats : List String) (m : String) (c : List Nat),
      hasReadableFile cs m c = true → matchesAny m pats = false →
      hasReadableFile (copyDir cs pats).1 m c = true) ∧
    (∀ (fs : String → Option Entry) (snap : List (String × Entry))
      (p : ProjectSpec) (src : Entry) (children : Entries),
      fs p.path = some src → rootChildren src = some children →
      (snap.map Prod.fst).contains p.name = false →
      (copyDir children p.exclude_folders).2 ≠ [] →
      runProject fs snap p =
        ((p.name, Outcome.copyError (copyDir children p.exclude_folders).2),
          snap ++ [(p.name, Entry.dir (copyDir children p.exclude_folders).1)])) ∧
    copyDir
        (Entries.cons "X" (Entry.file [1] false)
          (Entries.cons "Y" (Entry.file [2] true)
            (Entries.cons "Z" (Entry.file [3] true) Entries.nil))) [] =
      (Entries.cons "Y" (Entry.file [2] true)
          (Entries.cons "Z" (Entry.file [3] true) Entries.nil),
        ["X: PermissionError"]) := by
  refine ⟨copyDir_keeps_readable_files, ?_, by rfl⟩
  intro fs snap p src children hsrc hroot hfresh herrs
  have hne : (copyDir children p.exclude_folders).2.isEmpty = false := by
    rcases he : (copyDir children p.exclude_folders).2 with _ | ⟨a, l⟩
    · exact absurd he herrs
    · rfl
  rw [runProject, hsrc]
  simp only [hroot, hfresh, hne, Bool.false_eq_true, if_false]

/-- Witness for C5: the no-rollback conjunct and the copy-error marking at a
concrete partially failing project. -/
theorem claim_partial_failure_witness :
    hasReadableFile
        (copyDir
          (Entries.cons "X" (Entry.file [1] false)
            (Entries.cons "Y" (Entry.file [2] true) Entries.nil)) []).1
        "Y" [2] = true ∧
    runProject
        (fun s =>
          if s = "/p" then
            some (Entry.dir
              (Entries.cons "X" (Entry.file [1] false)
                (Entries.cons "Y" (Entry.file [2] true) Entries.nil)))
          else none)
        []
        { name := "P", path := "/p", exclude_folders := [] } =
      (("P", Outcome.copyError ["X: PermissionError"]),
        [("P", Entry.dir (Entries.cons "Y" (Entry.file [2] true) Entries.nil))]) := by
  constructor
  · exact claim_partial_failure.1
      (Entries.cons "X" (Entry.file [1] false)
        (Entries.cons "Y" (Entry.file [2] true) Entries.nil)) [] "Y" [2]
      (by decide) (by decide)
  · have h := claim_partial_failure.2.1
      (fun s =>
        if s = "/p" then
          some (Entry.dir
            (Entries.cons "X" (Entry.file [1] false)
              (Entries.cons "Y" (Entry.file [2] true) Entries.nil)))
        else none)
      []
      { name := "P", path := "/p", exclude_folders := [] }
      (Entry.dir
        (Entries.cons "X" (Entry.file [1] false)
          (Entries.cons "Y" (Entry.file [2] true) Entries.nil)))
      (Entries.cons "X" (Entry.file [1] false)
        (Entries.cons "Y" (Entry.file [2] true) Entries.nil))
      (by rfl) (by rfl) (by rfl) (by decide)
    simpa using h

/-- C6 counterexample: the claim says changing the interval does not restart
the currently-ticking timer's notion of "now".  Take a job armed at time 0
with a 10-minute period (so it would next fire at 10) and call
`save_interval` at time 9 with the same value 10: keeping the current
period's anchor would leave the next firing at
`spec_next_firing_keeping_anchor ⟨10, 10⟩ 10 = 10`, but
`reschedule_backup` clears the job and arms a fresh one at `9 + 10 = 19`,
discarding the 9 elapsed minutes. -/
theorem claim_reschedule_counterexample :
    (save_interval (some 10) create_default_settings 9
        [{ intervalMinutes := 10, nextRun := 10 }]).2 =
      [{ intervalMinutes := 10, nextRun := 19 }] ∧
    spec_next_firing_keeping_anchor { intervalMinutes := 10, nextRun := 10 } 10 = 10 ∧
    (19 : Nat) ≠ 10 :=
  ⟨rfl, rfl, by decide⟩

/-- C6 amended: a valid `save_interval` call while the scheduler is running
does not fire a backup immediately (the new job is not due at the change
time), does not double-fire at the old cadence (all previous jobs are
cleared; exactly one job remains, with the new period), but it restarts the
timer: the next firing is `newM` minutes after the change time, the elapsed
part of the current period being discarded. -/
theorem claim_reschedule_amended (i : Int) (settings : Settings) (now : Nat)
    (jobs : List SchedulerJob) (hi : 0 < i) :
    (save_interval (some i) settings now jobs).1 =
      { settings with backup_interval_minutes := i } ∧
    (save_interval (some i) settings now jobs).2 =
      [{ intervalMinutes := i.toNat, nextRun := now + i.toNat }] ∧
    (run_pending now (save_interval (some i) settings now jobs).2).2 = 0 := by
  have hsi : save_interval (some i) settings now jobs =
      ({ settings with backup_interval_minutes := i },
        [{ intervalMinutes := i.toNat, nextRun := now + i.toNat }]) := by
    rw [save_interval, if_pos hi]
    rfl
  have hpos : 0 < i.toNat := by omega
  have hnotdue : ¬(now + i.toNat ≤ now) := by omega
  refine ⟨by rw [hsi], by rw [hsi], ?_⟩
  rw [hsi]
  simp [run_pending, hnotdue]

/-- Witness for C6 amended at a concrete rescheduling call. -/
theorem claim_reschedule_amended_witness :
    (save_interval (some 5) create_default_settings 7
        [{ intervalMinutes := 10, nextRun := 17 }]).2 =
      [{ intervalMinutes := 5, nextRun := 12 }] ∧
    (run_pending 7
        (save_interval (some 5) create_default_settings 7
          [{ intervalMinutes := 10, nextRun := 17 }]).2).2 = 0 := by
  have h := claim_reschedule_amended 5 create_default_settings 7
    [{ intervalMinutes := 10, nextRun := 17 }] (by decide)
  exact ⟨h.2.1, h.2.2⟩

/-- C7 counterexample: the claim says that once `on_closing` returns no
further scheduled trigger ever fires, the stop joining the worker.  But
`on_closing` only assigns `self.is_running = False` and never joins: in the
interleaving where the worker has just passed the flag test, then
`on_closing` runs and returns, the worker still executes its committed
`schedule.run_pending()` call — one firing after stop returned. -/
theorem claim_stop_counterexample :
    schedExec schedInit [SchedAct.tCheck, SchedAct.tStop, SchedAct.tPending] =
      some { isRunning := false, pc := SchedPC.sleeping, stopReturned := true,
             firesAfterStop := 1 } ∧
    (1 : Nat) ≠ 0 :=
  ⟨rfl, by decide⟩

/-- C7 amended: stopping only lowers the running flag (no join), so after
`on_closing` returns the worker can execute at most the one
`schedule.run_pending()` call it had already committed to; in every
interleaving the number of `run_pending` executions after stop returns is at
most one. -/
theorem claim_stop_amended (tr : List SchedAct) (s1 : SchedSys)
    (h : schedExec schedInit tr = some s1) : s1.firesAfterStop ≤ 1 := by
  have hinv : schedInv s1 :=
    schedExec_inv tr schedInit s1 h (by refine ⟨?_, ?_, ?_⟩ <;> simp [schedInit])
  exact le_trans (Nat.le_add_right _ _) hinv.2.2

/-- Witness for C7 amended on the committed-firing interleaving. -/
theorem claim_stop_amended_witness :
    schedExec schedInit [SchedAct.tCheck, SchedAct.tStop, SchedAct.tPending,
        SchedAct.tSleep, SchedAct.tCheck] =
      some { isRunning := false, pc := SchedPC.done, stopReturned := true,
             firesAfterStop := 1 } ∧
    ({ isRunning := false, pc := SchedPC.done, stopReturned := true,
        firesAfterStop := 1 } : SchedSys).firesAfterStop ≤ 1 :=
  ⟨rfl,
    claim_stop_amended
      [SchedAct.tCheck, SchedAct.tStop, SchedAct.tPending, SchedAct.tSleep,
        SchedAct.tCheck] _ rfl⟩
end CodeAB
